import Mathlib

/-!
Shallow embedding of the access-control / ownership core of the 3dspace
backend (Express + Mongoose REST service), together with proofs about the
claims of its specification.

Conventions of the embedding:
* Mongo ObjectIds are modelled as natural numbers; `toString` equality
  comparisons on ids in the source become `Nat` equality.
* JS numbers that carry prices, coordinates and areas are modelled as `ℚ`
  (the source never relies on float rounding in the properties below).
* Mongoose documents are plain Lean structures; a `document.save()` is the
  corresponding pre-save hook applied to the document, followed by
  persistence.  `Model.findByIdAndUpdate` applies the update payload to the
  stored document WITHOUT running any pre-save document middleware —
  that is the documented Mongoose behaviour for query-based updates and is
  load-bearing for the metadata and versioning claims.
* Fallible route handlers return `Except String α`, the string being the
  error message of the JSON response.
-/

namespace ThreeDSpace

/-- Collaborator roles, from projectSchema.collaborators.role
    (enum viewer / editor / admin). -/
inductive Role where
  | viewer
  | editor
  | admin
deriving DecidableEq, Repr

/-- Role hierarchy of projectSchema.methods.hasAccess:
    const roleHierarchy = \x7b viewer: 1, editor: 2, admin: 3 \x7d. -/
def roleHierarchy : Role → Nat
  | .viewer => 1
  | .editor => 2
  | .admin => 3

/-- Subscription plans, enum free / pro / enterprise. -/
inductive Plan where
  | free
  | pro
  | enterprise
deriving DecidableEq, Repr

/-- Hierarchy of templateSchema.methods.canAccess:
    const subscriptionHierarchy = \x7b free: 1, pro: 2, enterprise: 3 \x7d.
    The same literal map appears in middleware/auth.js requireSubscription. -/
def subscriptionHierarchy : Plan → Nat
  | .free => 1
  | .pro => 2
  | .enterprise => 3

/-- Modelled from the spec (SubscriptionGate contract): tierRank(plan) with
    free=1, pro=2, enterprise=3.  Written from the words of the spec to be compared
    with the `subscriptionHierarchy` of the code. -/
def tierRank : Plan → Nat
  | .free => 1
  | .pro => 2
  | .enterprise => 3

/-- templateSchema.methods.canAccess(userSubscription): allow iff the user subscription level reaches the required level of the template.  The required
    plan (this.requirements.subscription) is passed explicitly. -/
def canAccess (userSubscription required : Plan) : Bool :=
  subscriptionHierarchy userSubscription ≥ subscriptionHierarchy required

/-- middleware/auth.js requireSubscription(requiredPlan): with no resolved
    user the request is rejected 401; otherwise it is rejected 403 when
    userLevel < requiredLevel, and passed through when not. -/
def requireSubscription (requiredPlan : Plan) (user : Option Plan) : Bool :=
  match user with
  | none => false
  | some userPlan =>
      ¬ (subscriptionHierarchy userPlan < subscriptionHierarchy requiredPlan)

/-- Project status enum draft / in_progress / completed / archived. -/
inductive Status where
  | draft
  | in_progress
  | completed
  | archived
deriving DecidableEq, Repr

/-- One entry of projectSchema.collaborators. -/
structure Collaborator where
  user : Nat
  role : Role
deriving DecidableEq, Repr

/-- The Project document (projectSchema fields the core touches). -/
structure Project where
  id : Nat
  name : String
  description : String
  owner : Nat
  collaborators : List Collaborator
  tags : List String
  isPublic : Bool
  status : Status
  lastModified : Nat
  version : Nat
deriving DecidableEq, Repr

/-- projectSchema pre-save hook: when the document is modified and not
    new, refresh lastModified and bump version by one; otherwise leave the
    document alone.  `isModified`/`isNew` are the Mongoose dirty/new flags,
    passed explicitly; `now` is the clock value of `new Date()`. -/
def projectPreSave (p : Project) (isModified isNew : Bool) (now : Nat) : Project :=
  if isModified && !isNew then
    { p with lastModified := now, version := p.version + 1 }
  else
    p

/-- projectSchema.methods.hasAccess(userId, requiredRole): the owner always
    has access; otherwise the first collaborator entry for userId is compared
    against requiredRole by roleHierarchy; absent collaborator means no
    access. -/
def hasAccess (p : Project) (userId : Nat) (requiredRole : Role) : Bool :=
  if p.owner == userId then
    true
  else
    match p.collaborators.find? (fun c => c.user == userId) with
    | none => false
    | some collaborator =>
        roleHierarchy collaborator.role ≥ roleHierarchy requiredRole

/-- Helper for addCollaborator: overwrite the role of the first entry whose
    user matches (the JS mutates the object returned by Array.find in
    place). -/
def setRoleOfFirst : List Collaborator → Nat → Role → List Collaborator
  | [], _, _ => []
  | c :: cs, userId, role =>
      if c.user == userId then { c with role := role } :: cs
      else c :: setRoleOfFirst cs userId role

/-- projectSchema.methods.addCollaborator(userId, role): if a collaborator
    entry for userId exists its role is overwritten in place, else a new
    entry is pushed.  (The JS then calls this.save(); persistence is applied
    by the caller of the model here.) -/
def addCollaborator (p : Project) (userId : Nat) (role : Role) : Project :=
  if (p.collaborators.find? (fun c => c.user == userId)).isSome then
    { p with collaborators := setRoleOfFirst p.collaborators userId role }
  else
    { p with collaborators := p.collaborators ++ [⟨userId, role⟩] }

/-- projectSchema.methods.removeCollaborator(userId): filter out every entry
    whose user matches. -/
def removeCollaborator (p : Project) (userId : Nat) : Project :=
  { p with collaborators := p.collaborators.filter (fun c => ¬ (c.user == userId)) }

/-- A 2D point of wallSchema.points. -/
structure Point2 where
  x : ℚ
  y : ℚ
deriving DecidableEq, Repr

/-- A 3D vector (positionSchema / rotationSchema / scaleSchema). -/
structure Vec3 where
  x : ℚ
  y : ℚ
  z : ℚ
deriving DecidableEq, Repr

/-- Furniture categories of furnitureItemSchema.category. -/
inductive FurnCategory where
  | seating
  | tables
  | storage
  | lighting
  | bedroom
  | decorative
deriving DecidableEq, Repr

/-- One embedded furniture placement of designSchema.furniture
    (furnitureItemSchema).  The subdocument schema is declared with
    \x7b _id: false \x7d, so these subdocuments carry NO Mongo `_id`; their only
    identifier is the application-level string field `id`. -/
structure FurnitureItem where
  id : String
  name : String
  category : FurnCategory
  type : String
  price : ℚ
  color : String
  position : Vec3
  rotation : Vec3
  scale : Vec3
  customProperties : List (String × String)
deriving DecidableEq, Repr

/-- One wall or room polygon of designSchema.elements (wallSchema, also
    declared with _id: false). -/
structure Wall where
  id : String
  type : String
  color : String
  points : List Point2
  completed : Bool
  thickness : ℚ
  height : ℚ
deriving DecidableEq, Repr

/-- One window of designSchema.elements.windows (windowSchema, _id: false). -/
structure Window where
  id : String
  wallId : String
  segmentIndex : Nat
  t : ℚ
  width : ℚ
  height : ℚ
  sill : ℚ
  color : String
deriving DecidableEq, Repr

/-- designSchema.elements. -/
structure Elements where
  walls : List Wall
  windows : List Window
  rooms : List Wall
deriving DecidableEq, Repr

/-- designSchema.metadata (lastRendered omitted: a nullable date the core
    never computes). -/
structure Metadata where
  totalArea : ℚ
  totalCost : ℚ
  furnitureCount : Nat
deriving DecidableEq, Repr

/-- The Design document (designSchema fields the core touches).  Note the
    type of `version`: the schema declares it as a String with default
    "1.0.0", not as a number. -/
structure Design where
  project : Nat
  name : String
  description : String
  version : String
  elements : Elements
  furniture : List FurnitureItem
  metadata : Metadata
  isPublic : Bool
  tags : List String
  status : Status
deriving DecidableEq, Repr

/-- Signed shoelace accumulator of the designSchema pre-save room loop:
    for i in [0, n), with j = (i+1) mod n, sum x_i*y_j - x_j*y_i.  Zipping
    the point list with its rotation by one yields exactly the cyclically
    adjacent pairs of the loop. -/
def shoelaceSum (pts : List Point2) : ℚ :=
  (pts.zip (pts.rotate 1)).foldl
    (fun area pq => area + (pq.1.x * pq.2.y - pq.2.x * pq.1.y)) 0

/-- Contribution of one room to metadata.totalArea: |shoelace|/2 when the
    polygon has at least 3 points, else nothing is added. -/
def roomAreaContribution (room : Wall) : ℚ :=
  if room.points.length ≥ 3 then |shoelaceSum room.points| / 2 else 0

/-- designSchema pre-save hook: recompute metadata.totalCost (sum of the
    furniture item prices), metadata.furnitureCount (number of furniture
    items) and metadata.totalArea (sum of the room polygon areas) from the
    current document state. -/
def designPreSave (d : Design) : Design :=
  { d with metadata :=
      { totalCost := d.furniture.foldl (fun total item => total + item.price) 0
        furnitureCount := d.furniture.length
        totalArea := d.elements.rooms.foldl
          (fun total room => total + roomAreaContribution room) 0 } }

/-- designSchema.methods.addFurniture(furnitureData): push the item and
    save (the save runs the pre-save metadata hook).  Caller-supplied fields
    are taken as already defaulted. -/
def addFurniture (d : Design) (item : FurnitureItem) : Design :=
  designPreSave { d with furniture := d.furniture ++ [item] }

/-- Semantics of Mongoose DocumentArray#id on designSchema.furniture: the
    method searches the subdocuments for a matching `_id`.  Because
    furnitureItemSchema is declared with _id: false, no furniture
    subdocument has an `_id`, and the lookup finds nothing for every
    argument (each subdocument is skipped because its `_id` is undefined). -/
def furnitureDocArrayId (furniture : List FurnitureItem) (lookupId : String) :
    Option FurnitureItem :=
  furniture.find? (fun _item => (none : Option String) == some lookupId)

/-- A patch payload for one furniture item (the update route passes the raw
    request body; fields absent from the body are `none`). -/
structure FurniturePatch where
  name : Option String := none
  price : Option ℚ := none
  color : Option String := none
  position : Option Vec3 := none
  rotation : Option Vec3 := none
  scale : Option Vec3 := none
deriving DecidableEq, Repr

/-- Object.assign(furniture, updateData): overwrite exactly the fields the
    patch mentions. -/
def applyFurniturePatch (item : FurnitureItem) (patch : FurniturePatch) :
    FurnitureItem :=
  { item with
      name := patch.name.getD item.name
      price := patch.price.getD item.price
      color := patch.color.getD item.color
      position := patch.position.getD item.position
      rotation := patch.rotation.getD item.rotation
      scale := patch.scale.getD item.scale }

/-- designSchema.methods.updateFurniture(furnitureId, updateData): look the
    item up with this.furniture.id(furnitureId) (DocumentArray#id, an `_id`
    lookup); when found, Object.assign the patch and save; when not, throw
    the error "Furniture not found". -/
def updateFurniture (d : Design) (furnitureId : String)
    (updateData : FurniturePatch) : Except String Design :=
  match furnitureDocArrayId d.furniture furnitureId with
  | some found =>
      .ok (designPreSave
        { d with furniture := d.furniture.map (fun item =>
            if item == found then applyFurniturePatch item updateData
            else item) })
  | none => .error "Furniture not found"

/-- designSchema.methods.removeFurniture(furnitureId): filter on the
    application-level `id` field and save. -/
def removeFurniture (d : Design) (furnitureId : String) : Design :=
  designPreSave
    { d with furniture := d.furniture.filter (fun f => ¬ (f.id == furnitureId)) }

/-- HTTP verbs the middleware inspects. -/
inductive HttpMethod where
  | GET
  | POST
  | PUT
  | DELETE
deriving DecidableEq, Repr

/-- middleware/auth.js requireOwnershipOrCollaboration, specialised to the
    Project model: pass when the user owns the resource; else pass when the
    collaborators list is non-empty and contains the user; else pass when
    the request is a GET and the resource is public; else respond 403. -/
def requireOwnershipOrCollaboration (method : HttpMethod) (p : Project)
    (userId : Nat) : Bool :=
  if p.owner == userId then
    true
  else if p.collaborators.length > 0 &&
      p.collaborators.any (fun collab => collab.user == userId) then
    true
  else if method == .GET && p.isPublic then
    true
  else
    false

/-- The persistent store the project-deletion route touches. -/
structure Store where
  projects : List Project
  designs : List Design
deriving DecidableEq, Repr

/-- DELETE /api/projects/:id: the requireOwnershipOrCollaboration middleware
    loads the project (404 when absent) and gates access; the handler then
    re-checks exact ownership (403 "Only project owners can delete projects"
    otherwise), deletes every Design of the project
    (Design.deleteMany(\x7b project: id \x7d)) and deletes the project itself. -/
def deleteProjectRoute (st : Store) (projectId userId : Nat) :
    Except String Store :=
  match st.projects.find? (fun p => p.id == projectId) with
  | none => .error "Resource not found"
  | some resource =>
      if ¬ (requireOwnershipOrCollaboration .DELETE resource userId) then
        .error "Access denied"
      else if ¬ (resource.owner == userId) then
        .error "Only project owners can delete projects"
      else
        .ok { projects := st.projects.filter (fun p => ¬ (p.id == projectId))
              designs := st.designs.filter (fun d => ¬ (d.project == projectId)) }

/-- Access check shared by the design update/delete/furniture routes: the
    project owner, or a collaborator whose role is editor or admin
    (the includes check on the list [editor, admin]). -/
def designEditAccess (proj : Project) (userId : Nat) : Bool :=
  proj.owner == userId ||
    proj.collaborators.any (fun collab =>
      collab.user == userId && (collab.role == .editor || collab.role == .admin))

/-- Update payload of PUT /api/designs/:id (fields the route copies into
    updateData when present in the body; the settings/environment merges are
    irrelevant to the claims and omitted). -/
structure DesignUpdateData where
  name : Option String := none
  description : Option String := none
  elements : Option Elements := none
  furniture : Option (List FurnitureItem) := none
  status : Option Status := none
  tags : Option (List String) := none
deriving DecidableEq, Repr

/-- Design.findByIdAndUpdate(id, updateData): apply exactly the fields of
    updateData to the stored document.  Being a query-level update, it does
    NOT run the designSchema pre-save document middleware, so metadata is
    left as stored. -/
def designFindByIdAndUpdate (d : Design) (u : DesignUpdateData) : Design :=
  { d with
      name := u.name.getD d.name
      description := u.description.getD d.description
      elements := u.elements.getD d.elements
      furniture := u.furniture.getD d.furniture
      status := u.status.getD d.status
      tags := u.tags.getD d.tags }

/-- PUT /api/designs/:id: load the design and its project, check
    owner-or-(editor|admin)-collaborator access, then persist the update via
    Design.findByIdAndUpdate. -/
def putDesignRoute (d : Design) (proj : Project) (userId : Nat)
    (u : DesignUpdateData) : Except String Design :=
  if designEditAccess proj userId then
    .ok (designFindByIdAndUpdate d u)
  else
    .error "Access denied"

/-- POST /api/designs/:id/duplicate: access is granted to the project owner,
    to any collaborator (role ignored), or to anyone when the design itself
    is public; the new Design copies the structural fields, keeps
    `project: design.project`, resets version to "1.0.0" and status to
    draft, and takes schema defaults elsewhere (isPublic false, tags []);
    newDesign.save() then runs the metadata pre-save hook. -/
def duplicateDesignRoute (d : Design) (proj : Project) (userId : Nat)
    (newName : Option String) : Except String Design :=
  if proj.owner == userId ||
      proj.collaborators.any (fun collab => collab.user == userId) ||
      d.isPublic then
    .ok (designPreSave
      { project := d.project
        name := newName.getD (d.name ++ " (Copy)")
        description := d.description
        version := "1.0.0"
        elements := d.elements
        furniture := d.furniture
        metadata := ⟨0, 0, 0⟩
        isPublic := false
        tags := []
        status := .draft })
  else
    .error "Access denied"

/-- The Template document fields the catalog query touches:
    requirements.subscription and isActive. -/
structure Template where
  id : Nat
  subscription : Plan
  isActive : Bool
deriving DecidableEq, Repr

/-- Tier clause of the GET /api/templates query builder: an authenticated
    free user matches subscription in [free]; a pro user matches
    subscription in [free, pro]; an enterprise user gets no subscription
    clause; an absent identity matches only the free subscription. -/
def tierClause (user : Option Plan) (subscription : Plan) : Bool :=
  match user with
  | some .free => subscription ∈ [Plan.free]
  | some .pro => subscription ∈ [Plan.free, Plan.pro]
  | some .enterprise => true
  | none => subscription == Plan.free

/-- GET /api/templates result set over a template collection: the query is
    \x7b isActive: true \x7d plus the tier clause plus the optional request
    filters (category, style, ..., abstracted as a predicate `extra`). -/
def listTemplatesQuery (user : Option Plan) (extra : Template → Bool)
    (templates : List Template) : List Template :=
  templates.filter (fun t => t.isActive && tierClause user t.subscription && extra t)

/-- Modelled from the spec (SubscriptionGate / CatalogQuery): the set of
    subscription tiers visible to a requesting identity — free sees only
    free, pro sees free and pro, enterprise sees all, absent identity sees
    free only. -/
def specVisibleTiers (user : Option Plan) : List Plan :=
  match user with
  | some .free => [.free]
  | some .pro => [.free, .pro]
  | some .enterprise => [.free, .pro, .enterprise]
  | none => [.free]

/-! Helper lemmas shared by several claim proofs. -/

/-- Folding addition of a projection over a list from any accumulator is the
    accumulator plus the sum of the mapped list. -/
theorem foldl_add_map_sum {α : Type} (f : α → ℚ) :
    ∀ (l : List α) (a : ℚ), l.foldl (fun total x => total + f x) a = a + (l.map f).sum
  | [], a => by simp
  | x :: xs, a => by
    rw [List.foldl_cons, foldl_add_map_sum f xs, List.map_cons, List.sum_cons]
    ring

/-- setRoleOfFirst does not change the sequence of collaborator user ids. -/
theorem setRoleOfFirst_map_user (userId : Nat) (role : Role) :
    ∀ l : List Collaborator,
      (setRoleOfFirst l userId role).map Collaborator.user = l.map Collaborator.user
  | [] => rfl
  | c :: cs => by
    by_cases h : (c.user == userId) = true
    · simp [setRoleOfFirst, h]
    · simp [setRoleOfFirst, h, setRoleOfFirst_map_user userId role cs]

/-- The tier clause of the template query matches exactly the visible-tier
    set of the specification. -/
theorem tierClause_eq_mem_visible (user : Option Plan) (s : Plan) :
    tierClause user s = true ↔ s ∈ specVisibleTiers user := by
  cases user with
  | none => cases s <;> simp [tierClause, specVisibleTiers]
  | some p => cases p <;> cases s <;> simp [tierClause, specVisibleTiers]

/-! Claim theorems. -/

/-- C8: canAccess(userPlan, requiredPlan) returns true iff
    tierRank(userPlan) ≥ tierRank(requiredPlan) with free=1, pro=2,
    enterprise=3; the requireSubscription middleware agrees with canAccess
    on every authenticated user; and canAccess(free,pro) = false,
    canAccess(pro,pro) = true, canAccess(enterprise,free) = true. -/
theorem canAccess_iff_tierRank :
    (∀ u r : Plan, canAccess u r = true ↔ tierRank u ≥ tierRank r)
    ∧ (∀ u r : Plan, requireSubscription r (some u) = canAccess u r)
    ∧ canAccess .free .pro = false
    ∧ canAccess .pro .pro = true
    ∧ canAccess .enterprise .free = true := by
  refine ⟨?_, ?_, by decide, by decide, by decide⟩
  · intro u r
    cases u <;> cases r <;> decide
  · intro u r
    cases u <;> cases r <;> decide

/-- C9: a template belongs to the result of the catalog list query iff it
    belongs to the collection, is active, passes the optional request
    filters, and its required subscription tier lies in the visible-tier
    set of the requesting identity (free plan sees only free, pro sees free
    and pro, enterprise sees all three, absent identity sees free only). -/
theorem listTemplates_tier_intersection :
    (∀ (user : Option Plan) (extra : Template → Bool) (ts : List Template)
        (t : Template),
      t ∈ listTemplatesQuery user extra ts ↔
        t ∈ ts ∧ t.isActive = true ∧ extra t = true ∧
          t.subscription ∈ specVisibleTiers user)
    ∧ specVisibleTiers (some .free) = [.free]
    ∧ specVisibleTiers (some .pro) = [.free, .pro]
    ∧ specVisibleTiers (some .enterprise) = [.free, .pro, .enterprise]
    ∧ specVisibleTiers none = [.free] := by
  refine ⟨?_, rfl, rfl, rfl, rfl⟩
  intro user extra ts t
  rw [listTemplatesQuery, List.mem_filter]
  simp only [Bool.and_eq_true, tierClause_eq_mem_visible]
  tauto

/-- C10: duplicating a public design succeeds for every authenticated user,
    owner or not, collaborator or not, and the duplicate is created under
    the same project as the source design. -/
theorem duplicate_public_design_same_project
    (d : Design) (proj : Project) (userId : Nat) (newName : Option String)
    (hpub : d.isPublic = true) :
    ∃ nd, duplicateDesignRoute d proj userId newName = .ok nd ∧
      nd.project = d.project := by
  unfold duplicateDesignRoute
  rw [hpub]
  simp only [Bool.or_true, if_true]
  exact ⟨_, rfl, rfl⟩

/-- C10 witness: a stranger (user 42, not the owner 1, not a collaborator)
    duplicates the concrete public design and the copy lands in project 7. -/
theorem duplicate_public_design_same_project_witness :
    ∃ nd,
      duplicateDesignRoute
        { project := 7, name := "Plan", description := "", version := "1.0.0"
          elements := ⟨[], [], []⟩, furniture := [], metadata := ⟨0, 0, 0⟩
          isPublic := true, tags := [], status := .draft }
        { id := 7, name := "P", description := "", owner := 1
          collaborators := [], tags := [], isPublic := false, status := .draft
          lastModified := 0, version := 1 }
        42 none = .ok nd ∧
      nd.project =
        ({ project := 7, name := "Plan", description := "", version := "1.0.0"
           elements := ⟨[], [], []⟩, furniture := [], metadata := ⟨0, 0, 0⟩
           isPublic := true, tags := [], status := .draft } : Design).project :=
  duplicate_public_design_same_project _ _ 42 none rfl

/-- C2: for a non-owner user whose collaborator entry carries role ro, the
    hasAccess check with required role r grants access exactly when
    roleHierarchy ro ≥ roleHierarchy r (viewer=1 < editor=2 < admin=3); in
    particular a collaborator holding the higher of two roles passes every
    check that requires the lower one. -/
theorem hasAccess_iff_role_ge (p : Project) (userId : Nat) (c : Collaborator)
    (requiredRole : Role)
    (hown : p.owner ≠ userId)
    (hfind : p.collaborators.find? (fun x => x.user == userId) = some c) :
    (hasAccess p userId requiredRole = true ↔
      roleHierarchy c.role ≥ roleHierarchy requiredRole)
    ∧ (∀ r1 r2 : Role, roleHierarchy r1 ≤ roleHierarchy r2 → c.role = r2 →
        hasAccess p userId r1 = true) := by
  have hbeq : (p.owner == userId) = false := beq_eq_false_iff_ne.mpr hown
  constructor
  · simp [hasAccess, hbeq, hfind]
  · intro r1 r2 h12 hrole
    simp only [hasAccess, hbeq, Bool.false_eq_true, if_false, hfind,
      decide_eq_true_eq]
    rw [hrole]
    exact h12

/-- C1: the delete-project route denies every user other than the exact
    owner, a collaborator with role admin included; the owner is allowed,
    and the deletion removes the project and cascades to every Design whose
    project reference matches it. -/
theorem deleteProject_owner_only (st : Store) (p : Project) (userId : Nat)
    (hp : st.projects.find? (fun q => q.id == p.id) = some p) :
    (userId ≠ p.owner → ∃ msg, deleteProjectRoute st p.id userId = .error msg)
    ∧ deleteProjectRoute st p.id p.owner =
        .ok { projects := st.projects.filter (fun q => ¬ (q.id == p.id))
              designs := st.designs.filter (fun d => ¬ (d.project == p.id)) }
    ∧ (∀ st2, deleteProjectRoute st p.id p.owner = .ok st2 →
        ∀ d ∈ st2.designs, d.project ≠ p.id) := by
  have hok : deleteProjectRoute st p.id p.owner =
      .ok { projects := st.projects.filter (fun q => ¬ (q.id == p.id))
            designs := st.designs.filter (fun d => ¬ (d.project == p.id)) } := by
    simp [deleteProjectRoute, hp, requireOwnershipOrCollaboration]
  refine ⟨?_, hok, ?_⟩
  · intro hne
    have hbeq : (p.owner == userId) = false :=
      beq_eq_false_iff_ne.mpr (fun h => hne h.symm)
    by_cases hreq : requireOwnershipOrCollaboration .DELETE p userId = true
    · exact ⟨"Only project owners can delete projects",
        by simp [deleteProjectRoute, hp, hreq, hbeq]⟩
    · exact ⟨"Access denied", by simp [deleteProjectRoute, hp, hreq]⟩
  · intro st2 hok2 d hd
    rw [hok] at hok2
    injection hok2 with h2
    subst h2
    rw [List.mem_filter] at hd
    simpa using hd.2

/-- C1 witness: on a concrete store holding project 1 (owner 1, admin
    collaborator 2) and two designs of that project, user 2 is denied and
    the owner deletion leaves no design of project 1. -/
theorem deleteProject_owner_only_witness :
    (∃ msg,
      deleteProjectRoute
        { projects := [{ id := 1, name := "Home", description := "", owner := 1
                         collaborators := [⟨2, .admin⟩], tags := []
                         isPublic := false, status := .draft, lastModified := 0
                         version := 1 }]
          designs := [{ project := 1, name := "A", description := ""
                        version := "1.0.0", elements := ⟨[], [], []⟩
                        furniture := [], metadata := ⟨0, 0, 0⟩, isPublic := false
                        tags := [], status := .draft }] }
        1 2 = .error msg) :=
  (deleteProject_owner_only
    { projects := [{ id := 1, name := "Home", description := "", owner := 1
                     collaborators := [⟨2, .admin⟩], tags := []
                     isPublic := false, status := .draft, lastModified := 0
                     version := 1 }]
      designs := [{ project := 1, name := "A", description := ""
                    version := "1.0.0", elements := ⟨[], [], []⟩
                    furniture := [], metadata := ⟨0, 0, 0⟩, isPublic := false
                    tags := [], status := .draft }] }
    { id := 1, name := "Home", description := "", owner := 1
      collaborators := [⟨2, .admin⟩], tags := [], isPublic := false
      status := .draft, lastModified := 0, version := 1 }
    2 rfl).1 (by decide)

/-- C6: addCollaborator preserves the at-most-one-entry-per-user invariant
    of the collaborators list, and removeCollaborator followed by
    addCollaborator with a different role yields exactly one entry for that
    user, carrying the new role. -/
theorem addCollaborator_upsert_no_dup (p : Project) (userId : Nat) (r r2 : Role)
    (hnodup : (p.collaborators.map Collaborator.user).Nodup) :
    ((addCollaborator p userId r).collaborators.map Collaborator.user).Nodup
    ∧ (addCollaborator (removeCollaborator p userId) userId r2).collaborators.filter
        (fun c => c.user == userId) = [⟨userId, r2⟩] := by
  constructor
  · cases hfo : p.collaborators.find? (fun c => c.user == userId) with
    | some c =>
        simp only [addCollaborator, hfo, Option.isSome_some, if_true]
        rw [setRoleOfFirst_map_user]
        exact hnodup
    | none =>
        have habs : ∀ x ∈ p.collaborators, x.user ≠ userId := by
          intro x hx
          have := List.find?_eq_none.mp hfo x hx
          simpa using this
        simp only [addCollaborator, hfo, Option.isSome_none, Bool.false_eq_true,
          if_false]
        rw [List.map_append]
        refine List.Nodup.append hnodup (List.nodup_singleton _) ?_
        intro a ha hb
        rw [List.mem_map] at ha
        obtain ⟨x, hx, rfl⟩ := ha
        simp only [List.map_cons, List.map_nil, List.mem_singleton] at hb
        exact habs x hx hb
  · have hnone : (removeCollaborator p userId).collaborators.find?
        (fun c => c.user == userId) = none := by
      apply List.find?_eq_none.mpr
      intro x hx
      rw [removeCollaborator] at hx
      rw [List.mem_filter] at hx
      simpa using hx.2
    simp only [addCollaborator, hnone, Option.isSome_none, Bool.false_eq_true,
      if_false]
    rw [List.filter_append]
    have hnil : (removeCollaborator p userId).collaborators.filter
        (fun c => c.user == userId) = [] := by
      rw [List.filter_eq_nil_iff]
      intro x hx
      rw [removeCollaborator] at hx
      rw [List.mem_filter] at hx
      simpa using hx.2
    rw [hnil]
    simp

/-- C6 witness: on a concrete project with collaborator (2, viewer), the
    upsert of user 2 as editor keeps the list duplicate-free, and
    remove-then-re-add of user 2 with role admin leaves exactly one entry
    for user 2, carrying role admin. -/
theorem addCollaborator_upsert_no_dup_witness :
    (((addCollaborator
        { id := 1, name := "Home", description := "", owner := 1
          collaborators := [⟨2, .viewer⟩], tags := [], isPublic := false
          status := .draft, lastModified := 0, version := 1 }
        2 .editor).collaborators.map Collaborator.user).Nodup)
    ∧ (addCollaborator (removeCollaborator
        { id := 1, name := "Home", description := "", owner := 1
          collaborators := [⟨2, .viewer⟩], tags := [], isPublic := false
          status := .draft, lastModified := 0, version := 1 } 2)
        2 .admin).collaborators.filter (fun c => c.user == 2) = [⟨2, .admin⟩] :=
  addCollaborator_upsert_no_dup
    { id := 1, name := "Home", description := "", owner := 1
      collaborators := [⟨2, .viewer⟩], tags := [], isPublic := false
      status := .draft, lastModified := 0, version := 1 }
    2 .editor .admin (by decide)

/-- C2 witness: on a concrete project owned by user 1 with collaborator
    (user 2, editor), the editor passes a viewer-level check. -/
theorem hasAccess_iff_role_ge_witness :
    hasAccess
      { id := 7, name := "P", description := "", owner := 1
        collaborators := [⟨2, .editor⟩], tags := [], isPublic := false
        status := .draft, lastModified := 0, version := 1 }
      2 .viewer = true :=
  (hasAccess_iff_role_ge
    { id := 7, name := "P", description := "", owner := 1
      collaborators := [⟨2, .editor⟩], tags := [], isPublic := false
      status := .draft, lastModified := 0, version := 1 }
    2 ⟨2, .editor⟩ .viewer (by decide) rfl).2 .viewer .editor (by decide) rfl

/-- Concrete rectangular room of the specification example, with corners
    (0,0), (4,0), (4,3), (0,3). -/
def rectRoom : Wall :=
  { id := "room-1", type := "room", color := "#666666"
    points := [⟨0, 0⟩, ⟨4, 0⟩, ⟨4, 3⟩, ⟨0, 3⟩]
    completed := true, thickness := 1/5, height := 3 }

/-- C7: the metadata recomputation of the design save hook yields totalCost
    equal to the sum of the furniture prices, furnitureCount equal to the
    number of furniture items, and totalArea equal to the sum of the
    per-room shoelace contributions; the rectangular room
    (0,0),(4,0),(4,3),(0,3) contributes area 12, and a room polygon with
    fewer than 3 points contributes 0. -/
theorem recomputeMetadata_shoelace :
    (∀ d : Design,
      (designPreSave d).metadata.totalCost =
          (d.furniture.map FurnitureItem.price).sum
      ∧ (designPreSave d).metadata.furnitureCount = d.furniture.length
      ∧ (designPreSave d).metadata.totalArea =
          (d.elements.rooms.map roomAreaContribution).sum)
    ∧ roomAreaContribution rectRoom = 12
    ∧ (∀ room : Wall, room.points.length < 3 → roomAreaContribution room = 0) := by
  refine ⟨?_, ?_, ?_⟩
  · intro d
    refine ⟨?_, rfl, ?_⟩
    · show d.furniture.foldl (fun total item => total + item.price) 0 = _
      rw [foldl_add_map_sum, zero_add]
    · show d.elements.rooms.foldl (fun total room => total + roomAreaContribution room) 0 = _
      rw [foldl_add_map_sum, zero_add]
  · have hlen : rectRoom.points.length ≥ 3 := by norm_num [rectRoom]
    have hsum : shoelaceSum rectRoom.points = 24 := by
      norm_num [rectRoom, shoelaceSum, List.rotate]
    rw [roomAreaContribution, if_pos hlen, hsum, abs_of_nonneg (by norm_num)]
    norm_num
  · intro room h
    rw [roomAreaContribution, if_neg (by omega)]

/-- C7 witness: a concrete 2-point room polygon contributes 0 to the total
    area. -/
theorem recomputeMetadata_shoelace_witness :
    roomAreaContribution
      { id := "r2", type := "room", color := "#666666"
        points := [⟨0, 0⟩, ⟨1, 0⟩], completed := false, thickness := 1/5
        height := 3 } = 0 :=
  recomputeMetadata_shoelace.2.2
    { id := "r2", type := "room", color := "#666666"
      points := [⟨0, 0⟩, ⟨1, 0⟩], completed := false, thickness := 1/5
      height := 3 } (by decide)

/-- Concrete furniture item used by the metadata and furniture-update
    scenarios. -/
def chairItem : FurnitureItem :=
  { id := "chair-1", name := "Chair", category := .seating, type := "armchair"
    price := 100, color := "#8B4513", position := ⟨0, 0, 0⟩
    rotation := ⟨0, 0, 0⟩, scale := ⟨1, 1, 1⟩, customProperties := [] }

/-- Concrete empty design living in project 1. -/
def emptyDesign : Design :=
  { project := 1, name := "Room A", description := "", version := "1.0.0"
    elements := ⟨[], [], []⟩, furniture := [], metadata := ⟨0, 0, 0⟩
    isPublic := false, tags := [], status := .draft }

/-- Concrete project 1 owned by user 1, with no collaborators. -/
def ownerProject : Project :=
  { id := 1, name := "Home", description := "", owner := 1
    collaborators := [], tags := [], isPublic := false, status := .draft
    lastModified := 0, version := 1 }

/-- C3 (refuting evaluation): the design update route persists a structural
    mutation through Design.findByIdAndUpdate, a query-level update that
    does not run the pre-save metadata hook.  After the project owner
    replaces the furniture list of the empty design with one item priced
    100, the stored document still reports totalCost 0, although the
    recomputation the claim requires would report 100. -/
theorem putDesign_leaves_stale_metadata :
    putDesignRoute emptyDesign ownerProject 1 { furniture := some [chairItem] } =
      .ok (designFindByIdAndUpdate emptyDesign { furniture := some [chairItem] })
    ∧ (designFindByIdAndUpdate emptyDesign
        { furniture := some [chairItem] }).furniture.map FurnitureItem.price = [100]
    ∧ (designFindByIdAndUpdate emptyDesign
        { furniture := some [chairItem] }).metadata.totalCost = 0
    ∧ (designPreSave (designFindByIdAndUpdate emptyDesign
        { furniture := some [chairItem] })).metadata.totalCost = 100 := by
  refine ⟨rfl, rfl, rfl, ?_⟩
  show ([chairItem].foldl (fun total item => total + item.price) 0 : ℚ) = 100
  rw [foldl_add_map_sum, zero_add]
  norm_num [chairItem]

/-- C4 counterexample: a save that is not the initial creation and follows a
    structural modification leaves the Design version at the string "1.0.0"
    — no integer version field of a Design is ever incremented — and a
    non-modifying, non-initial Project save also leaves version unchanged. -/
theorem design_version_not_incremented :
    (designPreSave (designFindByIdAndUpdate emptyDesign
        { furniture := some [chairItem] })).version = "1.0.0"
    ∧ emptyDesign.version = "1.0.0"
    ∧ projectPreSave ownerProject false false 99 = ownerProject :=
  ⟨rfl, rfl, rfl⟩

/-- C4 (amended): for a Project, a modifying non-initial save increments the
    integer version by exactly one and stamps lastModified with the save
    time, the initial save leaves version at its initial value, and no save
    ever decreases version — so Project.version is a monotonically
    increasing counter of the modifying saves; a Design save never touches
    its (string) version field. -/
theorem project_version_counter :
    (∀ (p : Project) (now : Nat),
      (projectPreSave p true false now).version = p.version + 1
      ∧ (projectPreSave p true false now).lastModified = now)
    ∧ (∀ (p : Project) (m : Bool) (now : Nat),
        (projectPreSave p m true now).version = p.version)
    ∧ (∀ (p : Project) (m n : Bool) (now : Nat),
        p.version ≤ (projectPreSave p m n now).version)
    ∧ (∀ d : Design, (designPreSave d).version = d.version) := by
  refine ⟨fun p now => ⟨rfl, rfl⟩, fun p m now => ?_, fun p m n now => ?_,
    fun d => rfl⟩
  · cases m <;> rfl
  · cases m <;> cases n <;> simp [projectPreSave]

/-- Concrete design holding exactly one furniture item, whose id is
    "chair-1". -/
def chairDesign : Design :=
  { emptyDesign with furniture := [chairItem] }

/-- C5 (refuting evaluation): updateFurniture looks its target up with
    DocumentArray#id, an `_id` lookup, but the furniture subdocuments are
    declared _id: false, so the lookup never succeeds: the method fails with
    "Furniture not found" for every itemId and never merges a patch, even
    when an item carrying exactly that id is present in the design. -/
theorem updateFurniture_never_finds :
    (∀ (d : Design) (fid : String) (patch : FurniturePatch),
        updateFurniture d fid patch = .error "Furniture not found")
    ∧ chairDesign.furniture.map FurnitureItem.id = ["chair-1"]
    ∧ updateFurniture chairDesign "chair-1" { price := some 42 } =
        .error "Furniture not found" := by
  have hnone : ∀ (l : List FurnitureItem) (fid : String),
      furnitureDocArrayId l fid = none := by
    intro l fid
    apply List.find?_eq_none.mpr
    intro x _hx
    simp
  exact ⟨fun d fid patch => by rw [updateFurniture, hnone], rfl,
    by rw [updateFurniture, hnone]⟩

end ThreeDSpace
